import Mathlib

/-!
Shallow embedding of the raydenrules medallion-ETL core
(`src/raydenrules/pipelines/silver_processing/nodes.py` and
`src/raydenrules/pipelines/bronze_ingestion/nodes.py`), together with
theorems settling the testable properties of its specification.

Modelling conventions:
* Python floats are modelled as `F`: either NaN or a finite rational.
  All finite-float arithmetic the claims touch is exact over `ℚ`.
* The one irrational operation (square root inside a standard deviation)
  is abstracted as an explicit `sqrt : ℚ → ℚ` parameter; every claim that
  touches it only ever applies it to `0` (where `sqrt 0 = 0` is assumed or
  instantiated), so no precision is lost.
* pandas `DataFrame`s are lists of records (structures); a dict of
  partitions is a list of key/value pairs; a Python value that may raise
  on use is an `Except Unit` result.
-/

namespace RaydenRules

/-- A Python float: NaN or a finite value (modelled exactly as a rational).
Infinities never arise in the embedded code paths. -/
inductive F where
  | nan : F
  | fin : ℚ → F
deriving DecidableEq, Repr

/-- IEEE subtraction restricted to the embedded values: any NaN operand
propagates. -/
def F.sub : F → F → F
  | F.fin a, F.fin b => F.fin (a - b)
  | _, _ => F.nan

/-- IEEE division restricted to the embedded values: any NaN operand
propagates.  (In the embedded pipeline the divisor is never the literal 0:
a zero rolling standard deviation is substituted by 1 before dividing, so
the `b = 0` branch is unreachable there; it is mapped to NaN only to keep
the function total.) -/
def F.div : F → F → F
  | F.fin a, F.fin b => if b = 0 then F.nan else F.fin (a / b)
  | _, _ => F.nan

/-- `mean >= threshold` under Python float comparison semantics:
any comparison with NaN is false. -/
def hotF (threshold : ℚ) : F → Bool
  | F.nan => false
  | F.fin q => threshold ≤ q

/-!  ## Degree days and UHI (silver_processing/nodes.py lines 297-310, 370-381) -/

/-- `calculate_degree_days(lst_mean_c, base_temp_c=18.0)`:
`cdd = max(0.0, lst_mean_c - base_temp_c)`, `hdd = max(0.0, base_temp_c - lst_mean_c)`. -/
def calculate_degree_days (lst_mean_c : ℚ) (base_temp_c : ℚ := 18) : ℚ × ℚ :=
  (max 0 (lst_mean_c - base_temp_c), max 0 (base_temp_c - lst_mean_c))

/-- `calculate_uhi_index(urban_temp, rural_baseline=20.0)`: plain difference. -/
def calculate_uhi_index (urban_temp : ℚ) (rural_baseline : ℚ := 20) : ℚ :=
  urban_temp - rural_baseline

/-!  ## Heatwave flagger (silver_processing/nodes.py lines 313-343)

The source iterates over the boolean column `lst_mean_c >= temp_threshold`
carrying a `streak` counter, emitting `1 if streak >= consecutive_days else 0`
at each row. -/

/-- The streak loop of `calculate_heatwave_flag`, carrying the current
`streak` value. -/
def heatwaveGo (consecutive_days : ℕ) (temp_threshold : ℚ) : ℕ → List F → List ℕ
  | _, [] => []
  | streak, m :: ms =>
      let streak' := if hotF temp_threshold m then streak + 1 else 0
      (if consecutive_days ≤ streak' then 1 else 0)
        :: heatwaveGo consecutive_days temp_threshold streak' ms

/-- `calculate_heatwave_flag(df, temp_threshold=32.0, consecutive_days=3)`
restricted to the `lst_mean_c` column, which is all it reads. -/
def calculate_heatwave_flag (means : List F) (temp_threshold : ℚ := 32)
    (consecutive_days : ℕ := 3) : List ℕ :=
  heatwaveGo consecutive_days temp_threshold 0 means

/-- Specification-side description of the streak value: the length of the
maximal all-hot suffix of the consumed prefix. -/
def trailingHotCount (threshold : ℚ) (ms : List F) : ℕ :=
  (ms.reverse.takeWhile (hotF threshold)).length

/-!  ## Anomaly scorer (silver_processing/nodes.py lines 346-367)

`calculate_anomaly_zscore` computes `rolling(window, min_periods=1).mean()`
and `.std()` over the `lst_mean_c` column, replaces an exactly-zero rolling
std by 1, and divides.  pandas rolling aggregations ignore NaN entries and
count only non-NaN observations toward `min_periods`; `Series.std` uses
`ddof = 1`, so a window with a single observation has NaN std (and
`.replace(0, 1)` does not touch NaN). -/

/-- The finite (non-NaN) values of a window, in order. -/
def finites : List F → List ℚ
  | [] => []
  | F.nan :: xs => finites xs
  | F.fin q :: xs => q :: finites xs

/-- Sample variance (`ddof = 1`): the square of the pandas rolling std of a
window with at least two observations. -/
def sampleVar (xs : List ℚ) : ℚ :=
  (xs.map (fun x => (x - xs.sum / (xs.length : ℚ)) ^ 2)).sum / ((xs.length : ℚ) - 1)

/-- Trailing window of at most `w` entries ending at position `i`. -/
def rollingWindow (w : ℕ) (ms : List F) (i : ℕ) : List F :=
  (ms.take (i + 1)).drop (i + 1 - w)

/-- One entry of `calculate_anomaly_zscore`: rolling mean, rolling sample std
(NaN when fewer than 2 observations), substitution of an exactly-zero std by
1, then `(x - mean) / std` under float semantics.  The square root inside the
std is the explicit parameter `sqrt`. -/
def zscoreAt (sqrt : ℚ → ℚ) (w : ℕ) (ms : List F) (i : ℕ) : F :=
  let x := (ms.get? i).getD F.nan
  let valid := finites (rollingWindow w ms i)
  let rmean : F := if valid.length = 0 then F.nan else F.fin (valid.sum / valid.length)
  let rstd : F := if 2 ≤ valid.length then F.fin (sqrt (sampleVar valid)) else F.nan
  let rstd' : F := if rstd = F.fin 0 then F.fin 1 else rstd
  F.div (F.sub x rmean) rstd'

/-- `calculate_anomaly_zscore(df, baseline_window=30)` restricted to the
`lst_mean_c` column, which is all it reads. -/
def calculate_anomaly_zscore (sqrt : ℚ → ℚ) (ms : List F)
    (baseline_window : ℕ := 30) : List F :=
  (List.range ms.length).map (zscoreAt sqrt baseline_window ms)

/-- A square-root function used to instantiate the abstract `sqrt` parameter
in concrete evaluations; it is exact on 0, the only input those evaluations
apply it to. -/
def sqrtOnZeros : ℚ → ℚ := fun _ => 0

/-!  ## Bronze normalizer (bronze_ingestion/nodes.py lines 62-91) -/

/-- One raw granule entry of the per-region search payload
(`lst_data["granules"][j]`); absent JSON fields are `none`. -/
structure RawGranule where
  id : Option String
  title : Option String
  time_start : Option String
  time_end : Option String
  cloud_cover : Option ℚ
deriving DecidableEq, Repr

/-- The parsed per-region payload (`lst_data`): product label, region bbox
(west, south, east, north), and the granule entries. -/
structure LstPayload where
  product : Option String
  region : List ℚ
  granules : List RawGranule
deriving DecidableEq, Repr

/-- One row of a bronze-layer granule DataFrame. -/
structure BronzeRow where
  region_id : String
  granule_id : Option String
  title : Option String
  time_start : Option String
  time_end : Option String
  cloud_cover : ℚ
  product : Option String
  bbox_west : Option ℚ
  bbox_south : Option ℚ
  bbox_east : Option ℚ
  bbox_north : Option ℚ
  date : Option String
deriving DecidableEq, Repr

/-- The calendar date of an ISO-8601 timestamp, as derived by
`pd.to_datetime(...).dt.date`: the segment before the `T` separator. -/
def dateOfTimeStart (s : String) : String :=
  (s.toList.takeWhile (fun ch => ch != 'T')).asString

/-- The per-region body of `prepare_bronze_granules` (lines 62-87): one bronze
row per raw granule entry, in payload order.  `granule.get(...)` yields null
for an absent field, `cloud_cover` defaults to 0, the bbox comes from the
payload `region` list, and the `date` column is derived from `time_start`
(null/NaT when `time_start` is absent). -/
def prepare_bronze_granules (region_id : String) (lst_data : LstPayload) :
    List BronzeRow :=
  lst_data.granules.map (fun granule =>
    { region_id := region_id
      granule_id := granule.id
      title := granule.title
      time_start := granule.time_start
      time_end := granule.time_end
      cloud_cover := granule.cloud_cover.getD 0
      product := lst_data.product
      bbox_west := lst_data.region.get? 0
      bbox_south := lst_data.region.get? 1
      bbox_east := lst_data.region.get? 2
      bbox_north := lst_data.region.get? 3
      date := granule.time_start.map dateOfTimeStart })

/-- Concrete payload with an out-of-date-order first granule and a granule
(id "A") missing `time_start` and `cloud_cover`. -/
def c6Payload : LstPayload :=
  { product := some "MOD11A1"
    region := [-74.3, 40.5, -73.7, 41.0]
    granules :=
      [ { id := some "B", title := some "tile B",
          time_start := some "2024-01-02T10:30:00Z",
          time_end := some "2024-01-02T10:35:00Z", cloud_cover := some 10 }
      , { id := some "A", title := none, time_start := none, time_end := none,
          cloud_cover := none }
      , { id := some "C", title := some "tile C",
          time_start := some "2024-01-01T10:30:00Z",
          time_end := some "2024-01-01T10:35:00Z", cloud_cover := some 20 } ] }

/-!  ## Partition consolidator (bronze_ingestion/nodes.py lines 168-233) -/

/-- A value of the partitions mapping: a concrete DataFrame, some non-table
value, or a lazy loader (callable) that returns a DataFrame, returns a
non-table value, or raises when invoked. -/
inductive PartitionValue where
  | table (rows : List BronzeRow)
  | nonTable
  | lazyTable (rows : List BronzeRow)
  | lazyNonTable
  | lazyRaises
deriving DecidableEq, Repr

/-- Resolving one partition value (`callable(item)` check plus the call):
`some rows` is a DataFrame, `none` a non-DataFrame value, and `.error ()`
models an exception escaping a lazy loader. -/
def resolvePartition : PartitionValue → Except Unit (Option (List BronzeRow))
  | .table rows => .ok (some rows)
  | .nonTable => .ok none
  | .lazyTable rows => .ok (some rows)
  | .lazyNonTable => .ok none
  | .lazyRaises => .error ()

/-- The loading loop of `consolidate_bronze_granules`: resolve in order, and
any exception aborts (the surrounding `except` block logs and re-raises). -/
def resolveAll : List PartitionValue → Except Unit (List (Option (List BronzeRow)))
  | [] => .ok []
  | v :: vs =>
    match resolvePartition v with
    | .error e => .error e
    | .ok r =>
      match resolveAll vs with
      | .error e => .error e
      | .ok rs => .ok (r :: rs)

/-- `sort_values(["region_id", "date"])` comparison: lexicographic on
(region_id, date); a missing date (NaT) sorts last (`na_position="last"`). -/
def dateLE : Option String → Option String → Prop
  | none, none => True
  | none, some _ => False
  | some _, none => True
  | some x, some y => x ≤ y

instance dateLE.dec : DecidableRel dateLE
  | none, none => isTrue trivial
  | none, some _ => isFalse id
  | some _, none => isTrue trivial
  | some x, some y => inferInstanceAs (Decidable (x ≤ y))

/-- Row ordering used by the consolidated-table sort. -/
def rowKeyLE (a b : BronzeRow) : Prop :=
  a.region_id < b.region_id ∨ (a.region_id = b.region_id ∧ dateLE a.date b.date)

instance rowKeyLE.dec : DecidableRel rowKeyLE := fun a b => by
  unfold rowKeyLE
  infer_instance

instance rowKeyLE.total : IsTotal BronzeRow rowKeyLE where
  total a b := by
    unfold rowKeyLE
    rcases lt_trichotomy a.region_id b.region_id with h | h | h
    · exact Or.inl (Or.inl h)
    · have hd : dateLE a.date b.date ∨ dateLE b.date a.date := by
        rcases ha : a.date with _ | x <;> rcases hb : b.date with _ | y
        · exact Or.inl trivial
        · exact Or.inr trivial
        · exact Or.inl trivial
        · exact (le_total x y).imp id id
      rcases hd with hd | hd
      · exact Or.inl (Or.inr ⟨h, hd⟩)
      · exact Or.inr (Or.inr ⟨h.symm, hd⟩)
    · exact Or.inr (Or.inl h)

instance rowKeyLE.trans : IsTrans BronzeRow rowKeyLE where
  trans a b c hab hbc := by
    have hdtrans : ∀ x y z : Option String, dateLE x y → dateLE y z → dateLE x z := by
      intro x y z h1 h2
      rcases x with _ | x <;> rcases y with _ | y <;> rcases z with _ | z <;>
        first
          | exact trivial
          | exact absurd h1 id
          | exact absurd h2 id
          | exact le_trans h1 h2
    rcases hab with h1 | ⟨h1, d1⟩
    · rcases hbc with h2 | ⟨h2, d2⟩
      · exact Or.inl (lt_trans h1 h2)
      · exact Or.inl (h2 ▸ h1)
    · rcases hbc with h2 | ⟨h2, d2⟩
      · exact Or.inl (h1 ▸ h2)
      · exact Or.inr ⟨h1.trans h2, hdtrans _ _ _ d1 d2⟩

/-- The `sort_values(["region_id", "date"])` step. -/
def sortRows (rows : List BronzeRow) : List BronzeRow :=
  List.insertionSort rowKeyLE rows

/-- `consolidate_bronze_granules(bronze_granules)`: empty mapping gives an
empty table; otherwise resolve every partition value (a raising lazy loader
propagates: the `except` block re-raises), keep only DataFrame values, return
an empty table when none remain, else the concatenation of all kept
DataFrames sorted by (region_id, date). -/
def consolidate_bronze_granules (parts : List (String × PartitionValue)) :
    Except Unit (List BronzeRow) :=
  if parts.isEmpty then .ok []
  else
    match resolveAll (parts.map (fun p => p.2)) with
    | .error e => .error e
    | .ok resolved =>
      let dfs := resolved.filterMap id
      if dfs.isEmpty then .ok []
      else .ok (sortRows dfs.join)

/-- The rows a partition value contributes: those of a (lazy or concrete)
DataFrame, nothing otherwise. -/
def tableRows : PartitionValue → List BronzeRow
  | .table rows => rows
  | .lazyTable rows => rows
  | _ => []

/-- Whether a partition value is (lazily or concretely) a DataFrame. -/
def isTableValued : PartitionValue → Bool
  | .table _ => true
  | .lazyTable _ => true
  | _ => false

/-- A short-hand bronze row for the concrete consolidator examples. -/
def mkRow (rid gid d : String) : BronzeRow :=
  { region_id := rid, granule_id := some gid, title := none, time_start := none,
    time_end := none, cloud_cover := 0, product := some "MOD11A1",
    bbox_west := none, bbox_south := none, bbox_east := none, bbox_north := none,
    date := some d }

/-- Two valid partitions (one lazily loaded) for the consolidator witness. -/
def c4Parts : List (String × PartitionValue) :=
  [ ("NYC001", .table [mkRow "NYC001" "g1" "2024-01-02", mkRow "NYC001" "g2" "2024-01-01"])
  , ("SEA001", .lazyTable [mkRow "SEA001" "g3" "2024-01-01"]) ]

/-- A valid partition next to one whose lazy loader raises. -/
def c5Parts : List (String × PartitionValue) :=
  [ ("NYC001", .table [mkRow "NYC001" "g1" "2024-01-02"])
  , ("SEA001", .lazyRaises) ]

/-- A partitions mapping mixing a valid table, a non-table value, an empty
table and a lazily-loaded table, none of which raises. -/
def c5OkParts : List (String × PartitionValue) :=
  [ ("NYC001", .table [mkRow "NYC001" "g1" "2024-01-02"])
  , ("PHX001", .nonTable)
  , ("DEN001", .table [])
  , ("SEA001", .lazyTable [mkRow "SEA001" "g3" "2024-01-01"]) ]

/-- What a non-raising partition value resolves to. -/
def resolvedValue : PartitionValue → Option (List BronzeRow)
  | .table rows => some rows
  | .nonTable => none
  | .lazyTable rows => some rows
  | .lazyNonTable => none
  | .lazyRaises => none

/-!  ## Raster metric extractor (silver_processing/nodes.py lines 225-294) -/

/-- A raster tile as seen by `extract_lst_from_hdf`: either opening the HDF
subdataset raises inside the `try` block (missing file, unopenable tile, or
absent named subdataset — `rasterio.open` fails in each case), or the
windowed read yields the raw uint16 pixel values. -/
inductive Hdf where
  | unopenable : Hdf
  | grid (data : List ℕ) : Hdf
deriving DecidableEq, Repr

/-- The statistics dictionary returned by a successful extraction. -/
structure LstStats where
  lst_mean_k : ℚ
  lst_mean_c : ℚ
  lst_min_c : ℚ
  lst_max_c : ℚ
  lst_std_c : ℚ
  valid_pixel_count : ℕ
  total_pixel_count : ℕ
deriving DecidableEq, Repr

/-- The raw-value mask `(data >= 7500) & (data <= 65535)`. -/
def validPixel (v : ℕ) : Bool := 7500 ≤ v && v ≤ 65535

/-- Population variance (`np.std` uses ddof = 0); the reported std is its
square root. -/
def popVar (xs : List ℚ) : ℚ :=
  (xs.map (fun x => (x - xs.sum / (xs.length : ℚ)) ^ 2)).sum / (xs.length : ℚ)

/-- `extract_lst_from_hdf(hdf_file, bbox)`: mask invalid pixels, apply the
0.02 scale factor (Kelvin), subtract 273.15 (Celsius), and return the
statistics; `none` (Python `None`) when the tile cannot be opened or the
subdataset is absent (the `except` block) or when zero valid pixels remain.
The min/max defaults of 0 are never used: the list is non-empty on that
branch. -/
def extract_lst_from_hdf (sq : ℚ → ℚ) : Hdf → Option LstStats
  | .unopenable => none
  | .grid data =>
    let valid := data.filter validPixel
    if valid.isEmpty then none
    else
      let validK : List ℚ := valid.map (fun v => (v : ℚ) * 0.02)
      let validC : List ℚ := validK.map (fun x => x - 273.15)
      some
        { lst_mean_k := validK.sum / (validK.length : ℚ)
          lst_mean_c := validC.sum / (validC.length : ℚ)
          lst_min_c := (validC.minimum?).getD 0
          lst_max_c := (validC.maximum?).getD 0
          lst_std_c := sq (popVar validC)
          valid_pixel_count := valid.length
          total_pixel_count := data.length }

/-!  ## Per-region silver processing (silver_processing/nodes.py lines 384-558)

The model below embeds the per-region body of `process_region_granules` on
the `enable_download=True` path, which is the path the extraction-failure
claims are about.  The outcome of the download steps for each granule
(`get_download_url` / `download_granule`) is part of the input row, since it
is decided by the external environment; `record.update(lst_stats)` keys that
no claim reads (`lst_mean_k`, `lst_std_c`, pixel counts) are elided. -/

/-- Outcome of the download steps for one granule: no HTTPS data link found,
download failed (`download_granule` returned None), or a tile was
downloaded. -/
inductive FetchOutcome where
  | noUrl
  | downloadFailed
  | downloaded (hdf : Hdf)
deriving DecidableEq, Repr

/-- The fields of one bronze-granule row as read by the silver loop, plus the
fetch outcome for that granule. -/
structure GranuleRow where
  region_id : String
  date : String
  granule_id : Option String
  title : Option String
  product : Option String
  time_start : Option String
  time_end : Option String
  cloud_cover : ℚ
  fetch : FetchOutcome
deriving DecidableEq, Repr

/-- One row of the per-region silver metrics DataFrame. -/
structure MetricRecord where
  region_id : String
  date : String
  granule_id : Option String
  title : Option String
  product : Option String
  time_start : Option String
  time_end : Option String
  cloud_cover : ℚ
  lst_mean_c : Option ℚ
  lst_min_c : Option ℚ
  lst_max_c : Option ℚ
  cdd : Option ℚ
  hdd : Option ℚ
  uhi_index : Option ℚ
  heatwave_flag : ℕ
  anomaly_zscore : F
  data_quality_flag : Bool
  processing_status : String
deriving DecidableEq, Repr

/-- `CLOUD_COVER_THRESHOLD = 50`. -/
def CLOUD_COVER_THRESHOLD : ℚ := 50

/-- The LST statistics reaching one record: extraction runs only on a
downloaded tile; a missing URL or a failed download yields `None`. -/
def fetchStats (sq : ℚ → ℚ) : FetchOutcome → Option LstStats
  | .downloaded h => extract_lst_from_hdf sq h
  | _ => none

/-- The per-granule body of the silver loop: passthrough fields, LST metrics
and degree days / UHI on success, nulls on any failure; placeholder heatwave
flag 0 and anomaly z-score 0.0; `data_quality_flag = cloud_cover < 50`;
`processing_status = "processed"` iff `lst_mean_c` is present. -/
def process_granule_record (sq : ℚ → ℚ) (row : GranuleRow) : MetricRecord :=
  match fetchStats sq row.fetch with
  | some stats =>
    { region_id := row.region_id, date := row.date, granule_id := row.granule_id,
      title := row.title, product := row.product, time_start := row.time_start,
      time_end := row.time_end, cloud_cover := row.cloud_cover,
      lst_mean_c := some stats.lst_mean_c, lst_min_c := some stats.lst_min_c,
      lst_max_c := some stats.lst_max_c,
      cdd := some (calculate_degree_days stats.lst_mean_c).1,
      hdd := some (calculate_degree_days stats.lst_mean_c).2,
      uhi_index := some (calculate_uhi_index stats.lst_mean_c),
      heatwave_flag := 0, anomaly_zscore := F.fin 0,
      data_quality_flag := decide (row.cloud_cover < CLOUD_COVER_THRESHOLD),
      processing_status := "processed" }
  | none =>
    { region_id := row.region_id, date := row.date, granule_id := row.granule_id,
      title := row.title, product := row.product, time_start := row.time_start,
      time_end := row.time_end, cloud_cover := row.cloud_cover,
      lst_mean_c := none, lst_min_c := none, lst_max_c := none,
      cdd := none, hdd := none, uhi_index := none,
      heatwave_flag := 0, anomaly_zscore := F.fin 0,
      data_quality_flag := decide (row.cloud_cover < CLOUD_COVER_THRESHOLD),
      processing_status := "failed" }

/-- `metrics_df.sort_values("date")`. -/
def sortRecordsByDate (recs : List MetricRecord) : List MetricRecord :=
  List.insertionSort (fun a b => a.date ≤ b.date) recs

/-- pandas `.round(2)` on the z-score column (NaN stays NaN). -/
def roundF2 : F → F
  | F.nan => F.nan
  | F.fin q => F.fin (((round (q * 100) : ℤ) : ℚ) / 100)

/-- A nullable DataFrame cell as a float: `None` is NaN. -/
def optToF : Option ℚ → F
  | some q => F.fin q
  | none => F.nan

/-- Writing the heatwave-flag and anomaly-z-score columns back into the
sorted records. -/
def zipUpdateFlags : List MetricRecord → List ℕ → List F → List MetricRecord
  | r :: rs, f :: fs, z :: zs =>
      ({ r with heatwave_flag := f, anomaly_zscore := z }) :: zipUpdateFlags rs fs zs
  | rs, _, _ => rs

/-- The per-region body of `process_region_granules` (enable_download path):
one metric record per granule, then the whole-series pass — sort by date,
heatwave flags, rounded anomaly z-scores. -/
def process_region_granules (sq : ℚ → ℚ) (rows : List GranuleRow) :
    List MetricRecord :=
  let recs := rows.map (process_granule_record sq)
  if recs.isEmpty then recs
  else
    let sorted := sortRecordsByDate recs
    let means := sorted.map (fun r => optToF r.lst_mean_c)
    let flags := calculate_heatwave_flag means
    let zs := (calculate_anomaly_zscore sq means).map roundF2
    zipUpdateFlags sorted flags zs

/-- The extraction-failure conditions of the claim, decidable on the fetch
outcome: tile unopenable / subdataset absent, or zero valid pixels after
masking. -/
def extraction_failed : FetchOutcome → Bool
  | .downloaded Hdf.unopenable => true
  | .downloaded (Hdf.grid data) => (data.filter validPixel).isEmpty
  | _ => false

/-- The fields `process_region_granules` reads from one bronze row, given
the fetch outcome for that granule (`str(row["date"])` stringifies a missing
date as NaT). -/
def granuleRowOfBronze (b : BronzeRow) (fetch : FetchOutcome) : GranuleRow :=
  { region_id := b.region_id
    date := b.date.getD "NaT"
    granule_id := b.granule_id
    title := b.title
    product := b.product
    time_start := b.time_start
    time_end := b.time_end
    cloud_cover := b.cloud_cover
    fetch := fetch }

/-- A granule whose tile opens but has zero valid pixels (0 below and 70000
above the valid range). -/
def c7BadRow : GranuleRow :=
  { region_id := "NYC001", date := "2024-01-02", granule_id := some "gBAD",
    title := none, product := some "MOD11A1", time_start := none,
    time_end := none, cloud_cover := 20,
    fetch := .downloaded (.grid [0, 70000]) }

/-- A granule whose extraction succeeds next to the failing one. -/
def c7Rows : List GranuleRow :=
  [ { region_id := "NYC001", date := "2024-01-01", granule_id := some "gOK",
      title := none, product := some "MOD11A1", time_start := none,
      time_end := none, cloud_cover := 10,
      fetch := .downloaded (.grid [10000, 9000]) }
  , c7BadRow ]

theorem trailingHotCount_append_one (threshold : ℚ) (ms : List F) (m : F) :
    trailingHotCount threshold (ms ++ [m]) =
      if hotF threshold m then trailingHotCount threshold ms + 1 else 0 := by
  unfold trailingHotCount
  rw [List.reverse_append]
  by_cases h : hotF threshold m <;> simp [h, List.takeWhile]

theorem heatwaveGo_length (k : ℕ) (t : ℚ) (s : ℕ) (ms : List F) :
    (heatwaveGo k t s ms).length = ms.length := by
  induction ms generalizing s with
  | nil => rfl
  | cons m ms ih => simp [heatwaveGo, ih]

/-- Invariant run of the streak loop: started with the trailing-hot count of
an already-consumed prefix `pre`, position `i` of the output is determined by
the trailing-hot count of `pre ++ (take (i+1))`. -/
theorem heatwaveGo_get?_spec (k : ℕ) (t : ℚ) (pre ms : List F) (i : ℕ)
    (hi : i < ms.length) :
    (heatwaveGo k t (trailingHotCount t pre) ms).get? i =
      some (if k ≤ trailingHotCount t (pre ++ ms.take (i + 1)) then 1 else 0) := by
  induction ms generalizing pre i with
  | nil => simp at hi
  | cons m ms ih =>
    have hstep : (if hotF t m then trailingHotCount t pre + 1 else 0) =
        trailingHotCount t (pre ++ [m]) := (trailingHotCount_append_one t pre m).symm
    cases i with
    | zero =>
      simp only [heatwaveGo, List.get?]
      rw [hstep]
      simp [List.take]
    | succ i =>
      simp only [heatwaveGo, List.get?]
      rw [hstep]
      have hi' : i < ms.length := by simpa using hi
      rw [ih (pre ++ [m]) i hi']
      simp [List.take, List.append_assoc]

/-- C1. `calculate_heatwave_flag` returns a sequence of the same length, each
flag being 1 iff the streak state (= trailing-hot count of the prefix up to
that position) has reached `consecutive_days`; and the spec scenario
[33.0, 33.5, 33.0, 20.0] with threshold 32.0 and min_days 3 yields [0,0,1,0]. -/
theorem heatwave_flag_streak_machine (ms : List F) (t : ℚ) (k : ℕ) :
    (calculate_heatwave_flag ms t k).length = ms.length ∧
    (∀ i, i < ms.length →
      (calculate_heatwave_flag ms t k).get? i =
        some (if k ≤ trailingHotCount t (ms.take (i + 1)) then 1 else 0)) ∧
    calculate_heatwave_flag [F.fin 33, F.fin 33.5, F.fin 33, F.fin 20] 32 3
      = [0, 0, 1, 0] := by
  refine ⟨heatwaveGo_length k t 0 ms, ?_,
    by norm_num [calculate_heatwave_flag, heatwaveGo, hotF]⟩
  intro i hi
  have h0 : trailingHotCount t ([] : List F) = 0 := rfl
  have := heatwaveGo_get?_spec k t [] ms i hi
  rw [h0] at this
  simpa using this

/-- Witness for C1 at the spec scenario. -/
theorem heatwave_flag_streak_machine_witness :
    calculate_heatwave_flag [F.fin 33, F.fin 33.5, F.fin 33, F.fin 20] 32 3
      = [0, 0, 1, 0] :=
  (heatwave_flag_streak_machine [] 32 3).2.2

/-- C2. Degree days: `cdd = max 0 (m - b)`, `hdd = max 0 (b - m)`; both zero
exactly when `m = b`, otherwise exactly one is nonzero; and the sign identity
`cdd - hdd = m - b` always holds. -/
theorem calculate_degree_days_spec (m b : ℚ) :
    (calculate_degree_days m b).1 = max 0 (m - b) ∧
    (calculate_degree_days m b).2 = max 0 (b - m) ∧
    (m = b → (calculate_degree_days m b).1 = 0 ∧ (calculate_degree_days m b).2 = 0) ∧
    (m ≠ b →
      ((calculate_degree_days m b).1 ≠ 0 ∧ (calculate_degree_days m b).2 = 0) ∨
      ((calculate_degree_days m b).1 = 0 ∧ (calculate_degree_days m b).2 ≠ 0)) ∧
    (calculate_degree_days m b).1 - (calculate_degree_days m b).2 = m - b := by
  unfold calculate_degree_days
  refine ⟨rfl, rfl, ?_, ?_, ?_⟩
  · rintro rfl; simp
  · intro hne
    rcases lt_or_gt_of_ne hne with h | h
    · right
      constructor
      · simp only [max_eq_left_iff]
        linarith
      · have : 0 < b - m := by linarith
        simp only [max_eq_right_iff.mpr this.le]
        linarith
    · left
      constructor
      · have : 0 < m - b := by linarith
        simp only [max_eq_right_iff.mpr this.le]
        linarith
      · simp only [max_eq_left_iff]
        linarith
  · rcases le_total m b with h | h
    · have h1 : m - b ≤ 0 := by linarith
      have h2 : 0 ≤ b - m := by linarith
      simp only [max_eq_left h1, max_eq_right h2]
      ring
    · have h1 : 0 ≤ m - b := by linarith
      have h2 : b - m ≤ 0 := by linarith
      simp only [max_eq_right h1, max_eq_left h2]
      ring

/-- Witness for C2 at the spec round-trip values `mean_c = 23.4`, `base = 18`. -/
theorem calculate_degree_days_spec_witness :
    (23.4 : ℚ) ≠ 18 ∧
    (((calculate_degree_days 23.4 18).1 ≠ 0 ∧ (calculate_degree_days 23.4 18).2 = 0) ∨
      ((calculate_degree_days 23.4 18).1 = 0 ∧ (calculate_degree_days 23.4 18).2 ≠ 0)) :=
  ⟨by norm_num, (calculate_degree_days_spec 23.4 18).2.2.2.1 (by norm_num)⟩

/-- Prefix determinism of the streak loop: outputs at position `i` agree
whenever the inputs agree on the first `i+1` elements. -/
theorem heatwaveGo_take_congr (k : ℕ) (t : ℚ) :
    ∀ (i : ℕ) (s : ℕ) (ms₁ ms₂ : List F),
      ms₁.take (i + 1) = ms₂.take (i + 1) →
      (heatwaveGo k t s ms₁).get? i = (heatwaveGo k t s ms₂).get? i := by
  intro i
  induction i with
  | zero =>
    intro s ms₁ ms₂ h
    cases ms₁ with
    | nil =>
      cases ms₂ with
      | nil => rfl
      | cons b bs => simp [List.take] at h
    | cons a as =>
      cases ms₂ with
      | nil => simp [List.take] at h
      | cons b bs =>
        simp only [List.take, List.take_zero, List.cons.injEq] at h
        simp [heatwaveGo, h.1]
  | succ i ih =>
    intro s ms₁ ms₂ h
    cases ms₁ with
    | nil =>
      cases ms₂ with
      | nil => rfl
      | cons b bs => simp [List.take] at h
    | cons a as =>
      cases ms₂ with
      | nil => simp [List.take] at h
      | cons b bs =>
        simp only [List.take, List.cons.injEq] at h
        simp only [heatwaveGo, List.get?]
        rw [h.1]
        exact ih _ as bs h.2

/-- C8. Causality: for equal-length inputs that agree at all positions ≤ i,
the heatwave flag at position i is the same. -/
theorem heatwave_flag_causal (ms₁ ms₂ : List F) (t : ℚ) (k : ℕ) (i : ℕ)
    (_hlen : ms₁.length = ms₂.length)
    (hagree : ms₁.take (i + 1) = ms₂.take (i + 1)) :
    (calculate_heatwave_flag ms₁ t k).get? i = (calculate_heatwave_flag ms₂ t k).get? i :=
  heatwaveGo_take_congr k t i 0 ms₁ ms₂ hagree

/-- Witness for C8: two sequences differing only at position 2 > 0 give the
same flag at position 0. -/
theorem heatwave_flag_causal_witness :
    ([F.fin 33, F.fin 33, F.fin 40] : List F).length = [F.fin 33, F.fin 33, F.fin 10].length ∧
    ([F.fin 33, F.fin 33, F.fin 40] : List F).take 1 = [F.fin 33, F.fin 33, F.fin 10].take 1 ∧
    (calculate_heatwave_flag [F.fin 33, F.fin 33, F.fin 40] 32 3).get? 0 =
      (calculate_heatwave_flag [F.fin 33, F.fin 33, F.fin 10] 32 3).get? 0 :=
  ⟨by decide, by decide,
    heatwave_flag_causal [F.fin 33, F.fin 33, F.fin 40] [F.fin 33, F.fin 33, F.fin 10]
      32 3 0 (by decide) (by decide)⟩

/-- NaN at position `p` resets the streak: the flag at `p` is 0 (whenever the
required run length is at least 1) and the tail of the output restarts from
streak 0. -/
theorem heatwaveGo_nan_reset (k : ℕ) (t : ℚ) (hk : 1 ≤ k) :
    ∀ (p : ℕ) (s : ℕ) (ms : List F), ms.get? p = some F.nan →
      (heatwaveGo k t s ms).get? p = some 0 ∧
      (heatwaveGo k t s ms).drop (p + 1) = heatwaveGo k t 0 (ms.drop (p + 1)) := by
  intro p
  induction p with
  | zero =>
    intro s ms hp
    cases ms with
    | nil => simp at hp
    | cons m ms =>
      simp only [List.get?] at hp
      injection hp with hm
      subst hm
      constructor
      · simp [heatwaveGo, hotF, Nat.not_succ_le_zero, Nat.lt_of_lt_of_le Nat.zero_lt_one hk]
        omega
      · simp [heatwaveGo, hotF]
  | succ p ih =>
    intro s ms hp
    cases ms with
    | nil => simp at hp
    | cons m ms =>
      simp only [List.get?] at hp
      have := ih (if hotF t m then s + 1 else 0) ms hp
      constructor
      · simpa [heatwaveGo] using this.1
      · simpa [heatwaveGo] using this.2

/-- C9. A NaN mean at position `p` is treated as not-hot: the flag there is 0
(for any positive required run length) and the streak restarts from scratch —
all later flags equal those of the suffix computed from a fresh streak of 0. -/
theorem heatwave_flag_nan_resets (ms : List F) (t : ℚ) (k : ℕ) (p : ℕ)
    (hk : 1 ≤ k) (hp : ms.get? p = some F.nan) :
    (calculate_heatwave_flag ms t k).get? p = some 0 ∧
    (calculate_heatwave_flag ms t k).drop (p + 1) =
      calculate_heatwave_flag (ms.drop (p + 1)) t k :=
  heatwaveGo_nan_reset k t hk p 0 ms hp

/-- Witness for C9: a NaN in the middle of a hot run zeroes the flag there and
forces the streak to rebuild. -/
theorem heatwave_flag_nan_resets_witness :
    (1 ≤ 3 ∧ ([F.fin 35, F.fin 35, F.nan, F.fin 35] : List F).get? 2 = some F.nan) ∧
    (calculate_heatwave_flag [F.fin 35, F.fin 35, F.nan, F.fin 35] 32 3).get? 2 = some 0 ∧
    (calculate_heatwave_flag [F.fin 35, F.fin 35, F.nan, F.fin 35] 32 3).drop 3 =
      calculate_heatwave_flag (([F.fin 35, F.fin 35, F.nan, F.fin 35] : List F).drop 3) 32 3 :=
  ⟨⟨by decide, by decide⟩,
    heatwave_flag_nan_resets [F.fin 35, F.fin 35, F.nan, F.fin 35] 32 3 2
      (by decide) (by decide)⟩

theorem F.nan_ne_fin (q : ℚ) : F.nan ≠ F.fin q := by
  intro h
  exact F.noConfusion h

theorem finites_replicate (k : ℕ) (c : ℚ) :
    finites (List.replicate k (F.fin c)) = List.replicate k c := by
  induction k with
  | zero => rfl
  | succ k ih => simp [List.replicate_succ, finites, ih]

theorem mean_replicate (k : ℕ) (hk : 0 < k) (c : ℚ) :
    (List.replicate k c).sum / ((List.replicate k c).length : ℚ) = c := by
  have hne : (k : ℚ) ≠ 0 := Nat.cast_ne_zero.mpr hk.ne'
  rw [List.sum_replicate, List.length_replicate, nsmul_eq_mul]
  field_simp

theorem sampleVar_replicate (k : ℕ) (c : ℚ) :
    sampleVar (List.replicate k c) = 0 := by
  unfold sampleVar
  rcases Nat.eq_zero_or_pos k with hk | hk
  · subst hk; simp
  · rw [mean_replicate k hk c]
    simp

theorem rollingWindow_replicate (w n i : ℕ) (hi : i < n) (c : ℚ) :
    rollingWindow w (List.replicate n (F.fin c)) i
      = List.replicate (min w (i + 1)) (F.fin c) := by
  unfold rollingWindow
  rw [List.take_replicate, List.drop_replicate]
  congr 1
  omega

theorem zscoreAt_replicate (sq : ℚ → ℚ) (hs : sq 0 = 0) (w n i : ℕ)
    (hw : 2 ≤ w) (hi : i < n) (c : ℚ) :
    zscoreAt sq w (List.replicate n (F.fin c)) i
      = if i = 0 then F.nan else F.fin 0 := by
  have hx : (List.replicate n (F.fin c)).get? i = some (F.fin c) := by
    simp [List.get?_eq_getElem?, hi]
  simp only [zscoreAt, rollingWindow_replicate w n i hi, finites_replicate, hx,
    Option.getD_some]
  set k := min w (i + 1) with hk
  have hkpos : 0 < k := by omega
  rw [mean_replicate k hkpos c, sampleVar_replicate, hs]
  simp only [List.length_replicate]
  cases i with
  | zero =>
    have hk1 : k = 1 := by omega
    rw [hk1]
    norm_num [F.sub, F.div, F.nan_ne_fin]
  | succ j =>
    have hk2 : 2 ≤ k := by omega
    rw [if_neg (by omega : ¬ k = 0), if_pos hk2]
    norm_num [F.sub, F.div, F.nan_ne_fin]

/-- C3 counterexample: on the perfectly constant series [5, 5, 5] the z-score
at position 0 is NaN (the sample std of one observation is NaN, and the
zero-substitution does not touch NaN), not 0 as claimed. -/
theorem anomaly_zscore_constant_counterexample :
    (calculate_anomaly_zscore sqrtOnZeros [F.fin 5, F.fin 5, F.fin 5] 30).get? 0
        = some F.nan ∧
    F.nan ≠ F.fin 0 := by
  constructor
  · norm_num [calculate_anomaly_zscore, List.range, List.range.loop, zscoreAt,
      rollingWindow, finites, F.sub, F.div, F.nan_ne_fin]
  · decide

/-- C3 (amended). On a non-empty perfectly constant series, with any window of
at least 2 and any square root with `sqrt 0 = 0`, the z-score is NaN at
position 0 (single-observation sample std is NaN) and 0 at every later
position (zero std is substituted by 1 and the numerator is 0). -/
theorem anomaly_zscore_constant_series (sq : ℚ → ℚ) (hs : sq 0 = 0)
    (w n : ℕ) (hw : 2 ≤ w) (hn : 1 ≤ n) (c : ℚ) :
    calculate_anomaly_zscore sq (List.replicate n (F.fin c)) w
      = F.nan :: List.replicate (n - 1) (F.fin 0) := by
  apply List.ext
  intro i
  have hlen : (List.range (List.replicate n (F.fin c)).length) = List.range n := by
    simp
  unfold calculate_anomaly_zscore
  rw [hlen]
  rcases Nat.lt_or_ge i n with hi | hi
  · rw [List.get?_map, (List.get?_range hi)]
    simp only [Option.map_some']
    rw [zscoreAt_replicate sq hs w n i hw hi c]
    cases i with
    | zero => simp
    | succ j =>
      have hj : j < n - 1 := by omega
      simp [List.get?_eq_getElem?, List.getElem?_replicate, hj]
  · have h1 : (List.range n).get? i = none := by
      rw [List.get?_eq_none]
      simpa using hi
    rw [List.get?_map, h1]
    have h2 : (F.nan :: List.replicate (n - 1) (F.fin 0)).get? i = none := by
      rw [List.get?_eq_none]
      simp
      omega
    rw [h2]
    rfl

/-- Witness for the amended C3 at the constant series [5, 5, 5], window 30. -/
theorem anomaly_zscore_constant_series_witness :
    sqrtOnZeros 0 = 0 ∧ 2 ≤ 30 ∧ 1 ≤ 3 ∧
    calculate_anomaly_zscore sqrtOnZeros (List.replicate 3 (F.fin 5)) 30
      = F.nan :: List.replicate 2 (F.fin 0) :=
  ⟨rfl, by decide, by decide,
    anomaly_zscore_constant_series sqrtOnZeros rfl 30 3 (by decide) (by decide) 5⟩

theorem resolveAll_ok (vs : List PartitionValue)
    (h : ∀ v ∈ vs, v ≠ PartitionValue.lazyRaises) :
    resolveAll vs = .ok (vs.map resolvedValue) := by
  induction vs with
  | nil => rfl
  | cons v vs ih =>
    have hv : v ≠ PartitionValue.lazyRaises := h v (List.mem_cons_self v vs)
    have ih' := ih (fun u hu => h u (List.mem_cons_of_mem v hu))
    cases v with
    | table rows => simp [resolveAll, resolvePartition, resolvedValue, ih']
    | nonTable => simp [resolveAll, resolvePartition, resolvedValue, ih']
    | lazyTable rows => simp [resolveAll, resolvePartition, resolvedValue, ih']
    | lazyNonTable => simp [resolveAll, resolvePartition, resolvedValue, ih']
    | lazyRaises => exact absurd rfl hv

theorem join_filterMap_resolved (vs : List PartitionValue) :
    ((vs.map resolvedValue).filterMap id).join = (vs.map tableRows).join := by
  induction vs with
  | nil => rfl
  | cons v vs ih =>
    cases v <;> simpa [resolvedValue, tableRows] using ih

/-- Evaluation of the consolidator when no partition raises: the unified
table is the sorted concatenation of the rows of all table-valued
partitions. -/
theorem consolidate_ok (parts : List (String × PartitionValue))
    (h : ∀ p ∈ parts, p.2 ≠ PartitionValue.lazyRaises) :
    consolidate_bronze_granules parts
      = .ok (sortRows ((parts.map (fun p => tableRows p.2)).join)) := by
  unfold consolidate_bronze_granules
  by_cases hemp : parts.isEmpty
  · have hnil : parts = [] := List.isEmpty_iff.mp hemp
    subst hnil
    simp [sortRows]
  · rw [if_neg hemp]
    rw [resolveAll_ok (parts.map (fun p => p.2))
      (by
        intro v hv
        rcases List.mem_map.mp hv with ⟨p, hp, rfl⟩
        exact h p hp)]
    show (if (((parts.map (fun p => p.2)).map resolvedValue).filterMap id).isEmpty
          then Except.ok []
          else Except.ok
            (sortRows ((((parts.map (fun p => p.2)).map resolvedValue).filterMap id).join)))
        = Except.ok (sortRows ((parts.map (fun p => tableRows p.2)).join))
    have hjoin : (((parts.map (fun p => p.2)).map resolvedValue).filterMap id).join
        = (parts.map (fun p => tableRows p.2)).join := by
      rw [join_filterMap_resolved (parts.map (fun p => p.2)), List.map_map]
      rfl
    by_cases hdfs : (((parts.map (fun p => p.2)).map resolvedValue).filterMap id).isEmpty
    · rw [if_pos hdfs]
      have hnil2 : ((parts.map (fun p => p.2)).map resolvedValue).filterMap id = [] :=
        List.isEmpty_iff.mp hdfs
      have hrhs : (parts.map (fun p => tableRows p.2)).join = [] := by
        rw [← hjoin, hnil2]
        rfl
      rw [hrhs]
      rfl
    · rw [if_neg hdfs, hjoin]

/-- C4. With every partition table-valued (lazy loaders resolved exactly
once), the consolidator succeeds with the sorted concatenation of all
partitions' rows: a permutation of the concatenation (so every row, with its
originating region_id, is retained verbatim), of length the sum of the
partition sizes, sorted by (region_id, date); and omitting any one partition
still succeeds with exactly the concatenation of the remaining partitions'
rows. -/
theorem consolidate_valid_partitions (parts : List (String × PartitionValue))
    (h : ∀ p ∈ parts, isTableValued p.2 = true) :
    (∃ out, consolidate_bronze_granules parts = .ok out ∧
      out.Perm ((parts.map (fun p => tableRows p.2)).join) ∧
      out.length = ((parts.map (fun p => (tableRows p.2).length)).sum) ∧
      List.Sorted rowKeyLE out) ∧
    (∀ j, ∃ outErased,
      consolidate_bronze_granules (parts.eraseIdx j) = .ok outErased ∧
      outErased.Perm (((parts.eraseIdx j).map (fun p => tableRows p.2)).join)) := by
  have hnr : ∀ p ∈ parts, p.2 ≠ PartitionValue.lazyRaises := by
    intro p hp hlr
    have := h p hp
    rw [hlr] at this
    exact absurd this (by simp [isTableValued])
  constructor
  · refine ⟨_, consolidate_ok parts hnr, ?_, ?_, ?_⟩
    · exact List.perm_insertionSort rowKeyLE _
    · simp only [sortRows]
      rw [(List.perm_insertionSort rowKeyLE _).length_eq, List.length_join]
      rw [List.map_map]
      rfl
    · exact List.sorted_insertionSort rowKeyLE _
  · intro j
    refine ⟨_, consolidate_ok (parts.eraseIdx j) ?_, List.perm_insertionSort rowKeyLE _⟩
    intro p hp
    exact hnr p (List.mem_of_mem_eraseIdx hp)

/-- Witness for C4 on two concrete partitions, one lazily loaded. -/
theorem consolidate_valid_partitions_witness :
    (∀ p ∈ c4Parts, isTableValued p.2 = true) ∧
    ((∃ out, consolidate_bronze_granules c4Parts = .ok out ∧
      out.Perm ((c4Parts.map (fun p => tableRows p.2)).join) ∧
      out.length = ((c4Parts.map (fun p => (tableRows p.2).length)).sum) ∧
      List.Sorted rowKeyLE out) ∧
    (∀ j, ∃ outErased,
      consolidate_bronze_granules (c4Parts.eraseIdx j) = .ok outErased ∧
      outErased.Perm (((c4Parts.eraseIdx j).map (fun p => tableRows p.2)).join))) :=
  ⟨by decide, consolidate_valid_partitions c4Parts (by decide)⟩

/-- C5 counterexample: a mapping holding one valid partition and one
partition whose lazy loader raises makes the consolidator raise (the
`except` block re-raises), contradicting "never raises on a single bad
partition". -/
theorem consolidate_raises_counterexample :
    consolidate_bronze_granules c5Parts = .error () := rfl

/-- C5 (amended). The consolidator never raises on partitions that resolve to
non-table values or to empty tables — those contribute nothing and the
remaining partitions are still consolidated — but a partition that fails to
resolve (its lazy loader raises) propagates the exception and aborts the
whole consolidation. -/
theorem consolidate_no_raise_without_loader_failure
    (parts : List (String × PartitionValue))
    (h : ∀ p ∈ parts, p.2 ≠ PartitionValue.lazyRaises) :
    ∃ out, consolidate_bronze_granules parts = .ok out ∧
      out.Perm ((parts.map (fun p => tableRows p.2)).join) :=
  ⟨_, consolidate_ok parts h, List.perm_insertionSort rowKeyLE _⟩

/-- Witness for the amended C5: a mix of a valid table, a non-table value, an
empty table and a lazy table consolidates without raising. -/
theorem consolidate_no_raise_without_loader_failure_witness :
    (∀ p ∈ c5OkParts, p.2 ≠ PartitionValue.lazyRaises) ∧
    ∃ out, consolidate_bronze_granules c5OkParts = .ok out ∧
      out.Perm ((c5OkParts.map (fun p => tableRows p.2)).join) :=
  ⟨by decide, consolidate_no_raise_without_loader_failure c5OkParts (by decide)⟩

/-- C6 counterexample: on `c6Payload` the normalizer keeps the granule
missing `time_start` (null date), keeps payload order (dates are not
ascending), and reports all three records rather than dropping one. -/
theorem prepare_bronze_counterexample :
    ((prepare_bronze_granules "NYC001" c6Payload).map (fun r => r.granule_id))
        = [some "B", some "A", some "C"] ∧
    ((prepare_bronze_granules "NYC001" c6Payload).map (fun r => r.date))
        = [some "2024-01-02", none, some "2024-01-01"] ∧
    (prepare_bronze_granules "NYC001" c6Payload).length ≠ 2 := by
  refine ⟨by decide, by decide, by decide⟩

/-- C6 (amended). The normalizer keeps every granule entry — including those
missing the granule id or `time_start`, whose missing field is recorded as
null (a missing `time_start` yields a null date) — reports no dropped count,
and preserves the raw payload order instead of sorting. -/
theorem prepare_bronze_keeps_all_in_order (region_id : String)
    (lst_data : LstPayload) :
    (prepare_bronze_granules region_id lst_data).length
        = lst_data.granules.length ∧
    (prepare_bronze_granules region_id lst_data).map
        (fun r => (r.granule_id, r.time_start, r.date))
      = lst_data.granules.map
          (fun g => (g.id, g.time_start, g.time_start.map dateOfTimeStart)) := by
  constructor
  · simp [prepare_bronze_granules]
  · simp [prepare_bronze_granules, List.map_map]

theorem fetchStats_none_of_failed (sq : ℚ → ℚ) (f : FetchOutcome)
    (h : extraction_failed f = true) : fetchStats sq f = none := by
  cases f with
  | noUrl => simp [extraction_failed] at h
  | downloadFailed => simp [extraction_failed] at h
  | downloaded hdf =>
    cases hdf with
    | unopenable => rfl
    | grid data =>
      have hempty : (data.filter validPixel).isEmpty = true := by
        simpa [extraction_failed] using h
      simp [fetchStats, extract_lst_from_hdf, hempty]

theorem process_granule_record_failed (sq : ℚ → ℚ) (row : GranuleRow)
    (h : fetchStats sq row.fetch = none) :
    process_granule_record sq row =
      { region_id := row.region_id, date := row.date, granule_id := row.granule_id,
        title := row.title, product := row.product, time_start := row.time_start,
        time_end := row.time_end, cloud_cover := row.cloud_cover,
        lst_mean_c := none, lst_min_c := none, lst_max_c := none,
        cdd := none, hdd := none, uhi_index := none,
        heatwave_flag := 0, anomaly_zscore := F.fin 0,
        data_quality_flag := decide (row.cloud_cover < CLOUD_COVER_THRESHOLD),
        processing_status := "failed" } := by
  unfold process_granule_record
  rw [h]

theorem process_granule_record_fields (sq : ℚ → ℚ) (row : GranuleRow) :
    (process_granule_record sq row).granule_id = row.granule_id ∧
    (process_granule_record sq row).date = row.date ∧
    (process_granule_record sq row).data_quality_flag
        = decide (row.cloud_cover < CLOUD_COVER_THRESHOLD) := by
  unfold process_granule_record
  cases fetchStats sq row.fetch <;> exact ⟨rfl, rfl, rfl⟩

theorem zipUpdateFlags_length (rs : List MetricRecord) :
    ∀ (fs : List ℕ) (zs : List F), rs.length ≤ fs.length → rs.length ≤ zs.length →
      (zipUpdateFlags rs fs zs).length = rs.length := by
  induction rs with
  | nil =>
    intro fs zs _ _
    cases fs <;> cases zs <;> rfl
  | cons r rs ih =>
    intro fs zs hf hz
    cases fs with
    | nil => simp at hf
    | cons f fs =>
      cases zs with
      | nil => simp at hz
      | cons z zs =>
        simp [zipUpdateFlags, ih fs zs (by simpa using hf) (by simpa using hz)]

theorem zipUpdateFlags_mem (rs : List MetricRecord) :
    ∀ (fs : List ℕ) (zs : List F) (r : MetricRecord), r ∈ rs →
      rs.length ≤ fs.length → rs.length ≤ zs.length →
      ∃ f z, ({ r with heatwave_flag := f, anomaly_zscore := z })
          ∈ zipUpdateFlags rs fs zs := by
  induction rs with
  | nil =>
    intro fs zs r hr
    simp at hr
  | cons r0 rs ih =>
    intro fs zs r hr hf hz
    cases fs with
    | nil => simp at hf
    | cons f fs =>
      cases zs with
      | nil => simp at hz
      | cons z zs =>
        rcases List.mem_cons.mp hr with rfl | hr
        · exact ⟨f, z, List.mem_cons_self _ _⟩
        · rcases ih fs zs r hr (by simpa using hf) (by simpa using hz) with ⟨f1, z1, hm⟩
          exact ⟨f1, z1, List.mem_cons_of_mem _ hm⟩

theorem calculate_anomaly_zscore_length (sq : ℚ → ℚ) (ms : List F) (w : ℕ) :
    (calculate_anomaly_zscore sq ms w).length = ms.length := by
  simp [calculate_anomaly_zscore]

theorem process_region_granules_eq (sq : ℚ → ℚ) (rows : List GranuleRow)
    (h : rows ≠ []) :
    process_region_granules sq rows =
      zipUpdateFlags (sortRecordsByDate (rows.map (process_granule_record sq)))
        (calculate_heatwave_flag
          ((sortRecordsByDate (rows.map (process_granule_record sq))).map
            (fun r => optToF r.lst_mean_c)))
        ((calculate_anomaly_zscore sq
          ((sortRecordsByDate (rows.map (process_granule_record sq))).map
            (fun r => optToF r.lst_mean_c))).map roundF2) := by
  unfold process_region_granules
  have hne : (rows.map (process_granule_record sq)).isEmpty = false := by
    cases rows with
    | nil => exact absurd rfl h
    | cons a as => rfl
  simp [hne]

theorem sortRecordsByDate_length (recs : List MetricRecord) :
    (sortRecordsByDate recs).length = recs.length :=
  (List.perm_insertionSort _ recs).length_eq

theorem mem_sortRecordsByDate (recs : List MetricRecord) (r : MetricRecord)
    (h : r ∈ recs) : r ∈ sortRecordsByDate recs :=
  ((List.perm_insertionSort _ recs).mem_iff).mpr h

/-- Membership in the fully-processed region output for any input row, with
the passthrough identification fields intact. -/
theorem process_region_mem (sq : ℚ → ℚ) (rows : List GranuleRow)
    (row : GranuleRow) (hmem : row ∈ rows) :
    ∃ f z, ({ process_granule_record sq row with
        heatwave_flag := f, anomaly_zscore := z })
      ∈ process_region_granules sq rows := by
  have hne : rows ≠ [] := by
    intro hnil
    rw [hnil] at hmem
    simp at hmem
  rw [process_region_granules_eq sq rows hne]
  set sorted := sortRecordsByDate (rows.map (process_granule_record sq)) with hsorted
  have hmem2 : process_granule_record sq row ∈ sorted :=
    mem_sortRecordsByDate _ _ (List.mem_map_of_mem _ hmem)
  apply zipUpdateFlags_mem sorted _ _ _ hmem2
  · simp [calculate_heatwave_flag, heatwaveGo_length]
  · simp [calculate_anomaly_zscore_length]

/-- C7. When extraction fails for a granule (tile unopenable, subdataset
absent, or zero valid pixels after masking), the stats value is `None`
rather than an exception, the region output still holds one record per
granule, the affected granule's record has null LST metric fields and
`processing_status = "failed"`, and every other granule still produces its
record. -/
theorem extraction_failure_contained (sq : ℚ → ℚ) (rows : List GranuleRow)
    (p : ℕ) (row : GranuleRow) (hp : rows.get? p = some row)
    (hfail : extraction_failed row.fetch = true) :
    fetchStats sq row.fetch = none ∧
    (∃ r ∈ process_region_granules sq rows,
      r.granule_id = row.granule_id ∧ r.date = row.date ∧
      r.lst_mean_c = none ∧ r.lst_min_c = none ∧ r.lst_max_c = none ∧
      r.cdd = none ∧ r.hdd = none ∧ r.uhi_index = none ∧
      r.processing_status = "failed") ∧
    (process_region_granules sq rows).length = rows.length ∧
    (∀ q rowq, rows.get? q = some rowq →
      ∃ r ∈ process_region_granules sq rows,
        r.granule_id = rowq.granule_id ∧ r.date = rowq.date) := by
  have hnone : fetchStats sq row.fetch = none :=
    fetchStats_none_of_failed sq row.fetch hfail
  have hmem : row ∈ rows := List.get?_mem hp
  have hne : rows ≠ [] := by
    intro hnil
    rw [hnil] at hmem
    simp at hmem
  refine ⟨hnone, ?_, ?_, ?_⟩
  · rcases process_region_mem sq rows row hmem with ⟨f, z, hm⟩
    refine ⟨_, hm, ?_⟩
    rw [process_granule_record_failed sq row hnone]
    exact ⟨rfl, rfl, rfl, rfl, rfl, rfl, rfl, rfl, rfl⟩
  · rw [process_region_granules_eq sq rows hne]
    rw [zipUpdateFlags_length]
    · rw [sortRecordsByDate_length, List.length_map]
    · simp [calculate_heatwave_flag, heatwaveGo_length]
    · simp [calculate_anomaly_zscore_length]
  · intro q rowq hq
    rcases process_region_mem sq rows rowq (List.get?_mem hq) with ⟨f, z, hm⟩
    refine ⟨_, hm, ?_, ?_⟩
    · exact (process_granule_record_fields sq rowq).1
    · exact (process_granule_record_fields sq rowq).2.1

/-- Witness for C7 at a region with a succeeding granule and a granule whose
tile has zero valid pixels. -/
theorem extraction_failure_contained_witness :
    (c7Rows.get? 1 = some c7BadRow ∧ extraction_failed c7BadRow.fetch = true) ∧
    (fetchStats sqrtOnZeros c7BadRow.fetch = none ∧
    (∃ r ∈ process_region_granules sqrtOnZeros c7Rows,
      r.granule_id = c7BadRow.granule_id ∧ r.date = c7BadRow.date ∧
      r.lst_mean_c = none ∧ r.lst_min_c = none ∧ r.lst_max_c = none ∧
      r.cdd = none ∧ r.hdd = none ∧ r.uhi_index = none ∧
      r.processing_status = "failed") ∧
    (process_region_granules sqrtOnZeros c7Rows).length = c7Rows.length ∧
    (∀ q rowq, c7Rows.get? q = some rowq →
      ∃ r ∈ process_region_granules sqrtOnZeros c7Rows,
        r.granule_id = rowq.granule_id ∧ r.date = rowq.date)) :=
  ⟨⟨rfl, by decide⟩,
    extraction_failure_contained sqrtOnZeros c7Rows 1 c7BadRow rfl (by decide)⟩

/-- C10. A granule entry with no `cloud_cover` field gets `cloud_cover = 0`
in its bronze row, and the silver record built from that row has
`data_quality_flag = true` (0 is below the threshold 50), whatever the fetch
outcome. -/
theorem missing_cloud_cover_good_quality (rid : String) (payload : LstPayload)
    (i : ℕ) (g : RawGranule) (hg : payload.granules.get? i = some g)
    (hcc : g.cloud_cover = none) (sq : ℚ → ℚ) (ft : FetchOutcome) :
    ∃ brow, (prepare_bronze_granules rid payload).get? i = some brow ∧
      brow.cloud_cover = 0 ∧
      (process_granule_record sq
        (granuleRowOfBronze brow ft)).data_quality_flag = true := by
  have hb : (prepare_bronze_granules rid payload).get? i = some
      { region_id := rid, granule_id := g.id, title := g.title,
        time_start := g.time_start, time_end := g.time_end,
        cloud_cover := g.cloud_cover.getD 0, product := payload.product,
        bbox_west := payload.region.get? 0, bbox_south := payload.region.get? 1,
        bbox_east := payload.region.get? 2, bbox_north := payload.region.get? 3,
        date := g.time_start.map dateOfTimeStart } := by
    unfold prepare_bronze_granules
    rw [List.get?_map, hg, Option.map_some']
  refine ⟨_, hb, ?_, ?_⟩
  · simp [hcc]
  · rw [(process_granule_record_fields sq (granuleRowOfBronze _ ft)).2.2]
    simp [granuleRowOfBronze, hcc, CLOUD_COVER_THRESHOLD]

/-- Witness for C10 at the payload granule "A", which has no cloud cover. -/
theorem missing_cloud_cover_good_quality_witness :
    (c6Payload.granules.get? 1 = some
      { id := some "A", title := none, time_start := none, time_end := none,
        cloud_cover := none } ∧
     ({ id := some "A", title := none, time_start := none, time_end := none,
        cloud_cover := none } : RawGranule).cloud_cover = none) ∧
    ∃ brow, (prepare_bronze_granules "NYC001" c6Payload).get? 1 = some brow ∧
      brow.cloud_cover = 0 ∧
      (process_granule_record sqrtOnZeros
        (granuleRowOfBronze brow FetchOutcome.noUrl)).data_quality_flag = true :=
  ⟨⟨rfl, rfl⟩,
    missing_cloud_cover_good_quality "NYC001" c6Payload 1 _ rfl rfl sqrtOnZeros
      FetchOutcome.noUrl⟩

end RaydenRules
